import Mathlib

/-!
Verification development for the Finvo AI repository.

This file shallowly embeds the parts of the code base that the checked
claims are about:

* `src/src/finvo_ai/models/schemas.py` — the pydantic schema validators
  (transaction date, transaction time, payment method, expense category,
  numeric bound constraints);
* `src/src/finvo_ai/services/document_loader.py` — file dispatch, size
  limits, the Tesseract line-merge and the image OCR fallback chain;
* `src/AI-Modules/invoice_extractor.py` — the legacy extractor (JSON brace
  repair, error dictionaries);
* `src/src/finvo_ai/agents/invoice_extractor.py` — result validation of
  the extraction agent.

Strings are modelled over their character lists; Python `float` amounts are
modelled as rationals (the claims only concern order comparisons against 0
and 1, where IEEE and rational comparison agree on the represented values);
external effects (file system, OCR engine, LLM API, `json.loads`) are
passed in as explicit parameters.  The date/time validators call CPython's
`datetime.strptime`; its behaviour on the concrete format strings used by
the code is embedded below (directive regexes from `Lib/_strptime.py`,
validity checks of the `datetime` constructor, `strftime` zero-padded
output).
-/

namespace Finvo

/-! ### Python string primitives (ASCII fragment) -/

/-- The character class of Python's `str.strip()` / regex white space
(ASCII fragment): tab, LF, VT, FF, CR, space. -/
def pySpace (c : Char) : Bool :=
  c.toNat == 32 || (9 ≤ c.toNat && c.toNat ≤ 13)

/-- ASCII decimal digit test (Python regex character class d). -/
def isDig (c : Char) : Bool :=
  48 ≤ c.toNat && c.toNat ≤ 57

/-- ASCII lower-casing of one character, as Python `str.lower()` acts on
ASCII input. -/
def lowChar (c : Char) : Char :=
  if 65 ≤ c.toNat ∧ c.toNat ≤ 90 then Char.ofNat (c.toNat + 32) else c

/-- ASCII upper-casing of one character, as Python `str.upper()` acts on
ASCII input. -/
def upChar (c : Char) : Char :=
  if 97 ≤ c.toNat ∧ c.toNat ≤ 122 then Char.ofNat (c.toNat - 32) else c

def pyLower (s : String) : String := String.mk (s.data.map lowChar)

def pyUpper (s : String) : String := String.mk (s.data.map upChar)

/-- Python `str.strip()` on the character list. -/
def stripList (cs : List Char) : List Char :=
  ((cs.dropWhile pySpace).reverse.dropWhile pySpace).reverse

def pyStrip (s : String) : String := String.mk (stripList s.data)

/-- Maximal leading run of ASCII digits, with the remainder. -/
def digitRun : List Char → List Char × List Char
  | [] => ([], [])
  | c :: cs =>
    if isDig c then
      let p := digitRun cs
      (c :: p.1, p.2)
    else ([], c :: cs)

/-- Maximal leading run of white space, with the remainder. -/
def spaceRun : List Char → List Char × List Char
  | [] => ([], [])
  | c :: cs =>
    if pySpace c then
      let p := spaceRun cs
      (c :: p.1, p.2)
    else ([], c :: cs)

/-- Numeric value of a digit character. -/
def digVal (c : Char) : Nat := c.toNat - 48

/-- Value of a digit string read left to right. -/
def digitsVal (ds : List Char) : Nat :=
  ds.foldl (fun a c => a * 10 + digVal c) 0

/-- Does `hay` begin with `needle`, comparing characters case-insensitively
(lower-cased)? -/
def beginsWithCI : List Char → List Char → Bool
  | [], _ => true
  | _ :: _, [] => false
  | n :: ns, h :: hs => lowChar n == lowChar h && beginsWithCI ns hs

/-- Python substring containment (`needle in hay`) on character lists. -/
def containsSeq (needle : List Char) : List Char → Bool
  | [] => needle.isEmpty
  | c :: cs => beginsWithCI needle (c :: cs) || containsSeq needle cs

/-! ### `datetime.strptime` for the formats used by the validators

`_strptime.py` compiles a format string into a regex: `%Y` matches exactly
four digits, `%y` exactly two, `%m`/`%I` match `1[0-2]|0[1-9]|[1-9]`,
`%d` matches `3[01]|[12]d|0[1-9]|[1-9]`, `%H` matches `2[0-3]|[0-1]d|d`,
`%M` matches `[0-5]d|d`, `%S` matches `6[0-1]|[0-5]d|d`, `%b`/`%B` match
the (abbreviated) month names case-insensitively, `%p` matches AM/PM
case-insensitively, literal white space matches one or more white-space
characters, other literals match themselves, and the whole input must be
consumed.  In every format string appearing in the repository each numeric
directive is followed by a non-digit literal, white space or the end of the
format, so the directive must consume the whole maximal digit run in front
of it; the embedding below uses that normal form.  Finally
`datetime.strptime` builds a `datetime`, which enforces the calendar/clock
bounds and raises `ValueError` otherwise (caught by the validator loops).
-/

inductive FmtItem where
  | lit (c : Char)
  | ws
  | dY | dy | dm | dd | dH | dI | dM | dS | db | dB | dp
  deriving DecidableEq, Repr

/-- Translate a Python format string (as used with `strptime`) into
directive items.  Unknown directives do not occur in the repository's
format strings. -/
def parseFmt : List Char → List FmtItem
  | [] => []
  | '%' :: c :: rest =>
    (match c with
      | 'Y' => FmtItem.dY
      | 'y' => FmtItem.dy
      | 'm' => FmtItem.dm
      | 'd' => FmtItem.dd
      | 'H' => FmtItem.dH
      | 'I' => FmtItem.dI
      | 'M' => FmtItem.dM
      | 'S' => FmtItem.dS
      | 'b' => FmtItem.db
      | 'B' => FmtItem.dB
      | 'p' => FmtItem.dp
      | c0 => FmtItem.lit c0) :: parseFmt rest
  | c :: rest =>
    (if pySpace c then FmtItem.ws else FmtItem.lit c) :: parseFmt rest

/-- Fields recognised while matching a format (subset used here). -/
structure STF where
  fY : Option Nat := none
  fy : Option Nat := none
  fm : Option Nat := none
  fd : Option Nat := none
  fH : Option Nat := none
  fI : Option Nat := none
  fM : Option Nat := none
  fS : Option Nat := none
  fp : Option Bool := none
  deriving DecidableEq, Repr

/-- Abbreviated month names (locale C), lower case, in month order. -/
def monthAbbr : List String :=
  ["jan", "feb", "mar", "apr", "may", "jun",
   "jul", "aug", "sep", "oct", "nov", "dec"]

/-- Full month names (locale C), lower case, in the longest-first order in
which `_strptime` compiles them into the regex alternation. -/
def monthFull : List (String × Nat) :=
  [("september", 9), ("february", 2), ("november", 11), ("december", 12),
   ("january", 1), ("october", 10), ("august", 8), ("march", 3),
   ("april", 4), ("june", 6), ("july", 7), ("may", 5)]

/-- Match one month name from `names` (case-insensitive prefix), returning
its month number and the remaining input. -/
def matchName (names : List (String × Nat)) (cs : List Char) :
    Option (Nat × List Char) :=
  names.findSome? fun p =>
    if beginsWithCI p.1.data cs then some (p.2, cs.drop p.1.data.length)
    else none

def monthAbbrTable : List (String × Nat) :=
  (monthAbbr.zip [1, 2, 3, 4, 5, 6, 7, 8, 9, 10, 11, 12])

/-- One-or-two-digit numeric directive: the maximal digit run must be of
length 1 with value in `[lo1, hi1]`, or length 2 with value in `[lo2, hi2]`
(mirrors the `_strptime` alternations for m, d, H, I, M, S). -/
def num12 (lo1 hi1 lo2 hi2 : Nat) (cs : List Char) :
    Option (Nat × List Char) :=
  let p := digitRun cs
  if p.1.length == 1 then
    let v := digitsVal p.1
    if lo1 ≤ v ∧ v ≤ hi1 then some (v, p.2) else none
  else if p.1.length == 2 then
    let v := digitsVal p.1
    if lo2 ≤ v ∧ v ≤ hi2 then some (v, p.2) else none
  else none

/-- Exactly `k` digits. -/
def numExact (k : Nat) (cs : List Char) : Option (Nat × List Char) :=
  let p := digitRun cs
  if p.1.length == k then some (digitsVal p.1, p.2) else none

/-- Sequentially match format items against the input; the whole input must
be consumed. -/
def matchItems : List FmtItem → List Char → STF → Option STF
  | [], [], st => some st
  | [], _ :: _, _ => none
  | it :: rest, cs, st =>
    match it with
    | .lit c =>
      match cs with
      | c2 :: cs2 => if c2 == c then matchItems rest cs2 st else none
      | [] => none
    | .ws =>
      let p := spaceRun cs
      if p.1.isEmpty then none else matchItems rest p.2 st
    | .dY =>
      match numExact 4 cs with
      | some vr => matchItems rest vr.2 { st with fY := some vr.1 }
      | none => none
    | .dy =>
      match numExact 2 cs with
      | some vr => matchItems rest vr.2 { st with fy := some vr.1 }
      | none => none
    | .dm =>
      match num12 1 9 1 12 cs with
      | some vr => matchItems rest vr.2 { st with fm := some vr.1 }
      | none => none
    | .dd =>
      match num12 1 9 1 31 cs with
      | some vr => matchItems rest vr.2 { st with fd := some vr.1 }
      | none => none
    | .dH =>
      match num12 0 9 0 23 cs with
      | some vr => matchItems rest vr.2 { st with fH := some vr.1 }
      | none => none
    | .dI =>
      match num12 1 9 1 12 cs with
      | some vr => matchItems rest vr.2 { st with fI := some vr.1 }
      | none => none
    | .dM =>
      match num12 0 9 0 59 cs with
      | some vr => matchItems rest vr.2 { st with fM := some vr.1 }
      | none => none
    | .dS =>
      match num12 0 9 0 61 cs with
      | some vr => matchItems rest vr.2 { st with fS := some vr.1 }
      | none => none
    | .db =>
      match matchName monthAbbrTable cs with
      | some vr => matchItems rest vr.2 { st with fm := some vr.1 }
      | none => none
    | .dB =>
      match matchName monthFull cs with
      | some vr => matchItems rest vr.2 { st with fm := some vr.1 }
      | none => none
    | .dp =>
      match cs with
      | a :: m :: cs2 =>
        if lowChar m == 'm' then
          if lowChar a == 'a' then matchItems rest cs2 { st with fp := some false }
          else if lowChar a == 'p' then matchItems rest cs2 { st with fp := some true }
          else none
        else none
      | _ => none

/-- Gregorian leap year. -/
def isLeap (y : Nat) : Bool :=
  y % 4 == 0 && (y % 100 != 0 || y % 400 == 0)

def daysInMonth (y m : Nat) : Nat :=
  if m == 2 then (if isLeap y then 29 else 28)
  else if m == 4 ∨ m == 6 ∨ m == 9 ∨ m == 11 then 30
  else 31

/-- The result of a successful `datetime.strptime` (fields the validators
use; seconds are range-checked and discarded). -/
structure PDT where
  year : Nat
  month : Nat
  day : Nat
  hour : Nat
  minute : Nat
  deriving DecidableEq, Repr

/-- Year as `_strptime` assembles it (default 1900; two-digit years get
the 1969-2068 century rule). -/
def stYear (st : STF) : Nat :=
  match st.fY with
  | some v => v
  | none =>
    match st.fy with
    | some v => if v ≤ 68 then 2000 + v else 1900 + v
    | none => 1900

/-- Hour as `_strptime` assembles it: a 24-hour field wins; otherwise a
12-hour field is converted with the AM/PM flag; default 0. -/
def stHour (st : STF) : Nat :=
  match st.fH with
  | some v => v
  | none =>
    match st.fI with
    | some i =>
      match st.fp with
      | some true => if i == 12 then 12 else i + 12
      | _ => if i == 12 then 0 else i
    | none => 0

/-- Assemble the matched fields as `_strptime` does (defaults 1900-01-01
00:00, two-digit-year century rule, 12-hour conversion with AM/PM) and
apply the `datetime` constructor's bound checks. -/
def stToDT (st : STF) : Option PDT :=
  let t : PDT :=
    { year := stYear st, month := (st.fm).getD 1, day := (st.fd).getD 1,
      hour := stHour st, minute := (st.fM).getD 0 }
  if 1 ≤ t.year ∧ t.year ≤ 9999 ∧ 1 ≤ t.month ∧ t.month ≤ 12 ∧
      1 ≤ t.day ∧ t.day ≤ daysInMonth t.year t.month ∧
      t.hour ≤ 23 ∧ t.minute ≤ 59 ∧ (st.fS).getD 0 ≤ 59 then
    some t
  else none

/-- `datetime.strptime(s, fmt)` for the repository's format strings. -/
def strptime (s fmt : String) : Option PDT :=
  matchItems (parseFmt fmt.data) s.data {} >>= stToDT

/-! ### `strftime` output used by the validators -/

def digChar (n : Nat) : Char := Char.ofNat (48 + n)

/-- `k`-digit zero-padded decimal representation (used for value < 10^k). -/
def padDigits : Nat → Nat → List Char
  | 0, _ => []
  | k + 1, n => padDigits k (n / 10) ++ [digChar (n % 10)]

/-- ISO date output of `strftime` with format `%Y-%m-%d` (zero padded as in
the Python documentation's format table; C-library padding of years below
1000 is platform dependent but unreachable for the claims checked here). -/
def isoDate (t : PDT) : String :=
  String.mk (padDigits 4 t.year ++ '-' :: padDigits 2 t.month ++
    '-' :: padDigits 2 t.day)

/-- Clock output of `strftime` with format `%H:%M`. -/
def hmFormat (t : PDT) : String :=
  String.mk (padDigits 2 t.hour ++ ':' :: padDigits 2 t.minute)

end Finvo

namespace Finvo

/-! ### `InvoiceData.validate_transaction_date` (schemas.py lines 227-256) -/

/-- The twelve formats tried, in source order. -/
def date_formats : List String :=
  ["%Y-%m-%d", "%m/%d/%Y", "%d/%m/%Y", "%m-%d-%Y", "%d-%m-%Y",
   "%Y/%m/%d", "%m/%d/%y", "%d/%m/%y", "%b %d, %Y", "%B %d, %Y",
   "%d %b %Y", "%d %B %Y"]

def dateErrMsg (v : String) : String :=
  "Date format not recognized. Got: " ++ v ++ ". Expected common date formats"

/-- The validator: `None` passes through, otherwise the formats are tried
in order and the first successful parse is re-rendered as an ISO date;
when all fail a `ValueError` is raised (modelled as `Except.error`). -/
def validate_transaction_date : Option String → Except String (Option String)
  | none => Except.ok none
  | some v =>
    match date_formats.findSome? (fun fmt => strptime v fmt) with
    | some t => Except.ok (some (isoDate t))
    | none => Except.error (dateErrMsg v)

/-! ### `InvoiceData.validate_transaction_time` (schemas.py lines 258-299) -/

def time_formats : List String :=
  ["%H:%M:%S", "%H:%M", "%I:%M:%S %p", "%I:%M %p",
   "%I:%M:%S%p", "%I:%M%p", "%H:%M:%S %p", "%H:%M %p"]

def fallback_time_formats : List String := ["%I:%M %p", "%I:%M:%S %p"]

def timeErrMsg (v : String) : String :=
  "Time format not recognized. Got: " ++ v ++
    ". Supported: HH:MM, HH:MM:SS, 12-hour with/without space"

/-- Python `any(suffix in v.upper() for suffix in [AM, PM])`. -/
def hasAmPm (v : String) : Bool :=
  containsSeq ("AM".data) (pyUpper v).data ||
    containsSeq ("PM".data) (pyUpper v).data

/-- One attempted match of the regex digits, colon, digits, AM-or-PM
(case-insensitive) at the head of the input; on success returns the
replacement text (a space inserted before the AM/PM) and the rest. -/
def matchSubAt (cs : List Char) : Option (List Char × List Char) :=
  let p1 := digitRun cs
  if p1.1.isEmpty then none
  else
    match p1.2 with
    | ':' :: r2 =>
      let p2 := digitRun r2
      if p2.1.isEmpty then none
      else
        match p2.2 with
        | a :: m :: r4 =>
          if (lowChar a == 'a' || lowChar a == 'p') && lowChar m == 'm' then
            some (p1.1 ++ ':' :: p2.1 ++ ' ' :: a :: [m], r4)
          else none
        | _ => none
    | _ => none

/-- Left-to-right scan of `re.sub`, with fuel (the input length bounds the
number of scan steps, since every step consumes at least one character). -/
def subAmPmAux : Nat → List Char → List Char
  | 0, cs => cs
  | _ + 1, [] => []
  | fuel + 1, c :: cs =>
    match matchSubAt (c :: cs) with
    | some pr => pr.1 ++ subAmPmAux fuel pr.2
    | none => c :: subAmPmAux fuel cs

/-- The `re.sub` call of the validator: insert a space between minutes and
a directly following AM/PM, everywhere in the string. -/
def subAmPm (s : String) : String := String.mk (subAmPmAux s.data.length s.data)

/-- The validator: `None` passes through; the stripped value is tried
against the eight formats in order; on failure, if the string mentions
AM/PM and the space-inserting substitution changes it, the two 12-hour
fallback formats are tried on the substituted string; otherwise a
`ValueError` is raised. -/
def validate_transaction_time : Option String → Except String (Option String)
  | none => Except.ok none
  | some v =>
    let vClean := pyStrip v
    match time_formats.findSome? (fun fmt => strptime vClean fmt) with
    | some t => Except.ok (some (hmFormat t))
    | none =>
      if hasAmPm vClean then
        let vSp := subAmPm vClean
        if vSp ≠ vClean then
          match fallback_time_formats.findSome? (fun fmt => strptime vSp fmt) with
          | some t => Except.ok (some (hmFormat t))
          | none => Except.error (timeErrMsg v)
        else Except.error (timeErrMsg v)
      else Except.error (timeErrMsg v)

end Finvo

namespace Finvo

/-! ### Supporting lemmas: bounds of a successful parse, and re-parsing the
normalized output -/

theorem stToDT_bounds (st : STF) (t : PDT) (h : stToDT st = some t) :
    1 ≤ t.year ∧ t.year ≤ 9999 ∧ 1 ≤ t.month ∧ t.month ≤ 12 ∧
      1 ≤ t.day ∧ t.day ≤ daysInMonth t.year t.month ∧
      t.hour ≤ 23 ∧ t.minute ≤ 59 := by
  simp only [stToDT] at h
  split at h
  · rename_i hc
    cases h
    exact ⟨hc.1, hc.2.1, hc.2.2.1, hc.2.2.2.1, hc.2.2.2.2.1,
      hc.2.2.2.2.2.1, hc.2.2.2.2.2.2.1, hc.2.2.2.2.2.2.2.1⟩
  · cases h

theorem daysInMonth_le_31 (y m : Nat) : daysInMonth y m ≤ 31 := by
  unfold daysInMonth
  split
  · split <;> omega
  · split <;> omega

theorem padDigits_length (k n : Nat) : (padDigits k n).length = k := by
  induction k generalizing n with
  | zero => rfl
  | succ k ih => simp [padDigits, ih]

theorem isDig_digChar (r : Nat) (h : r < 10) : isDig (digChar r) = true := by
  interval_cases r <;> decide

theorem digVal_digChar (r : Nat) (h : r < 10) : digVal (digChar r) = r := by
  interval_cases r <;> decide

theorem padDigits_all_dig (k n : Nat) :
    ∀ c ∈ padDigits k n, isDig c = true := by
  induction k generalizing n with
  | zero => intro c hc; cases hc
  | succ k ih =>
    intro c hc
    simp only [padDigits, List.mem_append, List.mem_singleton] at hc
    rcases hc with hc | hc
    · exact ih (n / 10) c hc
    · subst hc; exact isDig_digChar _ (Nat.mod_lt _ (by omega))

theorem digitsVal_append_one (xs : List Char) (c : Char) :
    digitsVal (xs ++ [c]) = digitsVal xs * 10 + digVal c := by
  simp [digitsVal, List.foldl_append]

theorem padDigits_val (k n : Nat) (h : n < 10 ^ k) :
    digitsVal (padDigits k n) = n := by
  induction k generalizing n with
  | zero => interval_cases n; rfl
  | succ k ih =>
    have hdiv : n / 10 < 10 ^ k := by
      have hp : 10 ^ (k + 1) = 10 ^ k * 10 := by ring
      omega
    calc digitsVal (padDigits (k + 1) n)
        = digitsVal (padDigits k (n / 10)) * 10 + digVal (digChar (n % 10)) := by
          rw [padDigits, digitsVal_append_one]
      _ = n / 10 * 10 + n % 10 := by
          rw [ih _ hdiv, digVal_digChar _ (Nat.mod_lt _ (by omega))]
      _ = n := by omega

/-- A run of digits followed by a non-digit (or nothing) is exactly what
`digitRun` peels off. -/
theorem digitRun_append (xs rest : List Char)
    (hxs : ∀ c ∈ xs, isDig c = true)
    (hrest : ∀ c, rest.head? = some c → isDig c = false) :
    digitRun (xs ++ rest) = (xs, rest) := by
  induction xs with
  | nil =>
    cases rest with
    | nil => rfl
    | cons c cs =>
      have hc := hrest c rfl
      simp [digitRun, hc]
  | cons x xs ih =>
    have hx : isDig x = true := hxs x (by simp)
    have ih2 := ih (fun c hc => hxs c (by simp [hc]))
    simp [digitRun, hx, ih2]

theorem numExact_pad (k v : Nat) (rest : List Char) (h : v < 10 ^ k)
    (hrest : ∀ c, rest.head? = some c → isDig c = false) :
    numExact k (padDigits k v ++ rest) = some (v, rest) := by
  unfold numExact
  rw [digitRun_append _ _ (padDigits_all_dig k v) hrest]
  simp [padDigits_length, padDigits_val k v h]

theorem num12_pad2 (lo1 hi1 lo2 hi2 v : Nat) (rest : List Char)
    (h : v < 100) (hlo : lo2 ≤ v) (hhi : v ≤ hi2)
    (hrest : ∀ c, rest.head? = some c → isDig c = false) :
    num12 lo1 hi1 lo2 hi2 (padDigits 2 v ++ rest) = some (v, rest) := by
  unfold num12
  rw [digitRun_append _ _ (padDigits_all_dig 2 v) hrest]
  have hv : digitsVal (padDigits 2 v) = v := padDigits_val 2 v (by omega)
  simp [padDigits_length, hv, hlo, hhi]

/-! Step lemmas for `matchItems` on a known head item. -/

theorem matchItems_nil (st : STF) : matchItems [] [] st = some st := by
  simp [matchItems]

theorem matchItems_lit (c : Char) (rest : List FmtItem) (cs : List Char)
    (st : STF) :
    matchItems (FmtItem.lit c :: rest) (c :: cs) st = matchItems rest cs st := by
  simp [matchItems]

theorem matchItems_dY (rest : List FmtItem) (cs tail : List Char) (st : STF)
    (v : Nat) (h : numExact 4 cs = some (v, tail)) :
    matchItems (FmtItem.dY :: rest) cs st =
      matchItems rest tail { st with fY := some v } := by
  simp [matchItems, h]

theorem matchItems_dm (rest : List FmtItem) (cs tail : List Char) (st : STF)
    (v : Nat) (h : num12 1 9 1 12 cs = some (v, tail)) :
    matchItems (FmtItem.dm :: rest) cs st =
      matchItems rest tail { st with fm := some v } := by
  simp [matchItems, h]

theorem matchItems_dd (rest : List FmtItem) (cs tail : List Char) (st : STF)
    (v : Nat) (h : num12 1 9 1 31 cs = some (v, tail)) :
    matchItems (FmtItem.dd :: rest) cs st =
      matchItems rest tail { st with fd := some v } := by
  simp [matchItems, h]

theorem matchItems_dH (rest : List FmtItem) (cs tail : List Char) (st : STF)
    (v : Nat) (h : num12 0 9 0 23 cs = some (v, tail)) :
    matchItems (FmtItem.dH :: rest) cs st =
      matchItems rest tail { st with fH := some v } := by
  simp [matchItems, h]

theorem matchItems_dM (rest : List FmtItem) (cs tail : List Char) (st : STF)
    (v : Nat) (h : num12 0 9 0 59 cs = some (v, tail)) :
    matchItems (FmtItem.dM :: rest) cs st =
      matchItems rest tail { st with fM := some v } := by
  simp [matchItems, h]

/-- Re-parsing the ISO-rendered date with the first format recovers the
date (this is what normalization to YYYY-MM-DD means). -/
theorem strptime_isoDate (t : PDT)
    (h1 : 1 ≤ t.year) (h2 : t.year ≤ 9999)
    (h3 : 1 ≤ t.month) (h4 : t.month ≤ 12)
    (h5 : 1 ≤ t.day) (h6 : t.day ≤ daysInMonth t.year t.month) :
    strptime (isoDate t) ("%Y-%m-%d") =
      some { year := t.year, month := t.month, day := t.day,
             hour := 0, minute := 0 } := by
  have hd31 : t.day ≤ 31 := le_trans h6 (daysInMonth_le_31 _ _)
  unfold strptime
  have hfmt : parseFmt (("%Y-%m-%d" : String).data) =
      [FmtItem.dY, FmtItem.lit '-', FmtItem.dm, FmtItem.lit '-',
       FmtItem.dd] := rfl
  have hdata : (isoDate t).data =
      padDigits 4 t.year ++ ('-' :: (padDigits 2 t.month ++
        ('-' :: (padDigits 2 t.day ++ ([] : List Char))))) := by
    rw [List.append_nil]; rfl
  rw [hfmt, hdata]
  rw [matchItems_dY _ _ _ _ _
    (numExact_pad 4 t.year _ (by omega) (by intro c hc; cases hc; rfl))]
  rw [matchItems_lit]
  rw [matchItems_dm _ _ _ _ _
    (num12_pad2 1 9 1 12 t.month _ (by omega) h3 h4
      (by intro c hc; cases hc; rfl))]
  rw [matchItems_lit]
  rw [matchItems_dd _ _ _ _ _
    (num12_pad2 1 9 1 31 t.day _ (by omega) h5 hd31
      (by intro c hc; cases hc))]
  rw [matchItems_nil]
  show stToDT _ = _
  simp only [stToDT]
  rw [if_pos ⟨h1, h2, h3, h4, h5, h6, Nat.zero_le 23, Nat.zero_le 59,
    Nat.zero_le 59⟩]
  rfl

/-- Re-parsing the HH:MM-rendered time with the 24-hour format recovers
the clock value. -/
theorem strptime_hmFormat (t : PDT) (h1 : t.hour ≤ 23) (h2 : t.minute ≤ 59) :
    strptime (hmFormat t) ("%H:%M") =
      some { year := 1900, month := 1, day := 1,
             hour := t.hour, minute := t.minute } := by
  unfold strptime
  have hfmt : parseFmt (("%H:%M" : String).data) =
      [FmtItem.dH, FmtItem.lit ':', FmtItem.dM] := rfl
  have hdata : (hmFormat t).data =
      padDigits 2 t.hour ++ (':' :: (padDigits 2 t.minute ++ ([] : List Char))) := by
    rw [List.append_nil]; rfl
  rw [hfmt, hdata]
  rw [matchItems_dH _ _ _ _ _
    (num12_pad2 0 9 0 23 t.hour _ (by omega) (by omega) h1
      (by intro c hc; cases hc; rfl))]
  rw [matchItems_lit]
  rw [matchItems_dM _ _ _ _ _
    (num12_pad2 0 9 0 59 t.minute _ (by omega) (by omega) h2
      (by intro c hc; cases hc))]
  rw [matchItems_nil]
  show stToDT _ = _
  simp only [stToDT]
  rw [if_pos ⟨(show (1:Nat) ≤ 1900 by omega), (show (1900:Nat) ≤ 9999 by omega),
    Nat.le_refl 1, (show (1:Nat) ≤ 12 by omega), Nat.le_refl 1,
    (show (1:Nat) ≤ daysInMonth 1900 1 by decide), h1, h2, Nat.zero_le 59⟩]
  rfl

end Finvo

namespace Finvo

/-- A successful `strptime` satisfies the `datetime` bounds. -/
theorem strptime_bounds (s fmt : String) (t : PDT) (h : strptime s fmt = some t) :
    1 ≤ t.year ∧ t.year ≤ 9999 ∧ 1 ≤ t.month ∧ t.month ≤ 12 ∧
      1 ≤ t.day ∧ t.day ≤ daysInMonth t.year t.month ∧
      t.hour ≤ 23 ∧ t.minute ≤ 59 := by
  unfold strptime at h
  cases hm : matchItems (parseFmt fmt.data) s.data {} with
  | none => rw [hm] at h; cases h
  | some st => rw [hm] at h; exact stToDT_bounds st t h

/-- C1: for a non-None `transaction_date`, if the string parses under one
of the twelve listed date formats (tried in that order) the validator
returns it normalized to YYYY-MM-DD — the first successful parse is
re-rendered in ISO form and re-parsing that output with the ISO format
recovers the same calendar date; if no format parses it, validation raises
a `ValueError`; a None value is returned unchanged. -/
theorem C1_validate_transaction_date (v : String) :
    validate_transaction_date none = Except.ok none ∧
    ((∃ fmt ∈ date_formats, (strptime v fmt).isSome) →
      ∃ t, date_formats.findSome? (fun fmt => strptime v fmt) = some t ∧
        validate_transaction_date (some v) = Except.ok (some (isoDate t)) ∧
        ∃ t2, strptime (isoDate t) ("%Y-%m-%d") = some t2 ∧
          t2.year = t.year ∧ t2.month = t.month ∧ t2.day = t.day) ∧
    ((∀ fmt ∈ date_formats, strptime v fmt = none) →
      validate_transaction_date (some v) = Except.error (dateErrMsg v)) := by
  refine ⟨rfl, ?_, ?_⟩
  · intro hex
    have hne : date_formats.findSome? (fun fmt => strptime v fmt) ≠ none := by
      intro h0
      obtain ⟨fmt, hmem, hsome⟩ := hex
      rw [List.findSome?_eq_none_iff.mp h0 fmt hmem] at hsome
      cases hsome
    obtain ⟨t, ht⟩ := Option.ne_none_iff_exists'.mp hne
    refine ⟨t, ht, by simp [validate_transaction_date, ht], ?_⟩
    obtain ⟨fmt, hmem, heq⟩ := List.exists_of_findSome?_eq_some ht
    obtain ⟨b1, b2, b3, b4, b5, b6, _, _⟩ := strptime_bounds v fmt t heq
    exact ⟨_, strptime_isoDate t b1 b2 b3 b4 b5 b6, rfl, rfl, rfl⟩
  · intro hall
    have h0 : date_formats.findSome? (fun fmt => strptime v fmt) = none :=
      List.findSome?_eq_none_iff.mpr hall
    simp [validate_transaction_date, h0]

theorem C1_validate_transaction_date_witness :
    ∃ t, date_formats.findSome? (fun fmt => strptime ("Dec 5, 2023") fmt) =
        some t ∧
      validate_transaction_date (some ("Dec 5, 2023")) =
        Except.ok (some (isoDate t)) ∧
      ∃ t2, strptime (isoDate t) ("%Y-%m-%d") = some t2 ∧
        t2.year = t.year ∧ t2.month = t.month ∧ t2.day = t.day :=
  (C1_validate_transaction_date ("Dec 5, 2023")).2.1 (by decide)

/-- C2: for a non-None `transaction_time`, if the stripped string parses
under one of the eight listed time formats the validator returns the time
normalized to 24-hour HH:MM (re-parsing the output with the 24-hour format
recovers the clock value); if not, but the string mentions AM/PM and
inserting a space before a directly trailing AM/PM changes it so that one
of the two 12-hour fallback formats parses, the same normalized output is
produced from the substituted string; in every remaining case validation
raises a `ValueError`; a None value is returned unchanged. -/
theorem C2_validate_transaction_time (v : String) :
    validate_transaction_time none = Except.ok none ∧
    ((∃ fmt ∈ time_formats, (strptime (pyStrip v) fmt).isSome) →
      ∃ t, time_formats.findSome? (fun fmt => strptime (pyStrip v) fmt) =
          some t ∧
        validate_transaction_time (some v) = Except.ok (some (hmFormat t)) ∧
        ∃ t2, strptime (hmFormat t) ("%H:%M") = some t2 ∧
          t2.hour = t.hour ∧ t2.minute = t.minute) ∧
    ((∀ fmt ∈ time_formats, strptime (pyStrip v) fmt = none) →
      ((hasAmPm (pyStrip v) = true → subAmPm (pyStrip v) ≠ pyStrip v →
        ((∃ fmt ∈ fallback_time_formats,
            (strptime (subAmPm (pyStrip v)) fmt).isSome) →
          ∃ t, fallback_time_formats.findSome?
              (fun fmt => strptime (subAmPm (pyStrip v)) fmt) = some t ∧
            validate_transaction_time (some v) =
              Except.ok (some (hmFormat t)) ∧
            ∃ t2, strptime (hmFormat t) ("%H:%M") = some t2 ∧
              t2.hour = t.hour ∧ t2.minute = t.minute) ∧
        ((∀ fmt ∈ fallback_time_formats,
            strptime (subAmPm (pyStrip v)) fmt = none) →
          validate_transaction_time (some v) = Except.error (timeErrMsg v))) ∧
      (hasAmPm (pyStrip v) = false ∨ subAmPm (pyStrip v) = pyStrip v →
        validate_transaction_time (some v) = Except.error (timeErrMsg v)))) := by
  refine ⟨rfl, ?_, ?_⟩
  · intro hex
    have hne : time_formats.findSome? (fun fmt => strptime (pyStrip v) fmt) ≠
        none := by
      intro h0
      obtain ⟨fmt, hmem, hsome⟩ := hex
      rw [List.findSome?_eq_none_iff.mp h0 fmt hmem] at hsome
      cases hsome
    obtain ⟨t, ht⟩ := Option.ne_none_iff_exists'.mp hne
    refine ⟨t, ht, by simp [validate_transaction_time, ht], ?_⟩
    obtain ⟨fmt, hmem, heq⟩ := List.exists_of_findSome?_eq_some ht
    obtain ⟨_, _, _, _, _, _, b7, b8⟩ := strptime_bounds _ fmt t heq
    exact ⟨_, strptime_hmFormat t b7 b8, rfl, rfl⟩
  · intro hall
    have h0 : time_formats.findSome? (fun fmt => strptime (pyStrip v) fmt) =
        none := List.findSome?_eq_none_iff.mpr hall
    constructor
    · intro hAm hSub
      constructor
      · intro hex2
        have hne2 : fallback_time_formats.findSome?
            (fun fmt => strptime (subAmPm (pyStrip v)) fmt) ≠ none := by
          intro h1
          obtain ⟨fmt, hmem, hsome⟩ := hex2
          rw [List.findSome?_eq_none_iff.mp h1 fmt hmem] at hsome
          cases hsome
        obtain ⟨t, ht2⟩ := Option.ne_none_iff_exists'.mp hne2
        refine ⟨t, ht2, ?_, ?_⟩
        · simp [validate_transaction_time, h0, hAm, hSub, ht2]
        · obtain ⟨fmt, hmem, heq⟩ := List.exists_of_findSome?_eq_some ht2
          obtain ⟨_, _, _, _, _, _, b7, b8⟩ := strptime_bounds _ fmt t heq
          exact ⟨_, strptime_hmFormat t b7 b8, rfl, rfl⟩
      · intro hall2
        have h1 : fallback_time_formats.findSome?
            (fun fmt => strptime (subAmPm (pyStrip v)) fmt) = none :=
          List.findSome?_eq_none_iff.mpr hall2
        simp [validate_transaction_time, h0, hAm, hSub, h1]
    · intro hor
      rcases hor with hAm | hSub
      · simp [validate_transaction_time, h0, hAm]
      · simp [validate_transaction_time, h0, hSub]

theorem C2_validate_transaction_time_witness :
    ∃ t, time_formats.findSome?
        (fun fmt => strptime (pyStrip ("05:52PM")) fmt) = some t ∧
      validate_transaction_time (some ("05:52PM")) =
        Except.ok (some (hmFormat t)) ∧
      ∃ t2, strptime (hmFormat t) ("%H:%M") = some t2 ∧
        t2.hour = t.hour ∧ t2.minute = t.minute :=
  (C2_validate_transaction_time ("05:52PM")).2.1 (by decide)

end Finvo

namespace Finvo

/-! ### Enums and the `pre=True` enum-mapping validators (schemas.py)

The `pre=True` validators receive the raw field value.  The value universe
is modelled as None, an enum member, or a string (the `str(v)` coercion of
other Python values is out of scope: the validators only ever see JSON
scalars, which pydantic hands over as strings here). -/

inductive PaymentMethod where
  | CASH | CREDIT_CARD | DEBIT_CARD | MOBILE_PAYMENT
  | BANK_TRANSFER | CHECK | INTERAC | OTHER
  deriving DecidableEq, Repr

def PaymentMethod.value : PaymentMethod → String
  | .CASH => "cash"
  | .CREDIT_CARD => "credit_card"
  | .DEBIT_CARD => "debit_card"
  | .MOBILE_PAYMENT => "mobile_payment"
  | .BANK_TRANSFER => "bank_transfer"
  | .CHECK => "check"
  | .INTERAC => "interac"
  | .OTHER => "other"

/-- Members in declaration order (Python enum iteration order). -/
def paymentMembers : List PaymentMethod :=
  [.CASH, .CREDIT_CARD, .DEBIT_CARD, .MOBILE_PAYMENT,
   .BANK_TRANSFER, .CHECK, .INTERAC, .OTHER]

/-- The `payment_mappings` dict, in source order. -/
def payment_mappings : List (String × PaymentMethod) :=
  [("interac", .INTERAC), ("visa", .CREDIT_CARD), ("mastercard", .CREDIT_CARD),
   ("amex", .CREDIT_CARD), ("american express", .CREDIT_CARD),
   ("discover", .CREDIT_CARD), ("debit", .DEBIT_CARD), ("credit", .CREDIT_CARD),
   ("e-transfer", .BANK_TRANSFER), ("etransfer", .BANK_TRANSFER),
   ("wire", .BANK_TRANSFER), ("apple pay", .MOBILE_PAYMENT),
   ("google pay", .MOBILE_PAYMENT), ("paypal", .MOBILE_PAYMENT),
   ("venmo", .MOBILE_PAYMENT), ("cash", .CASH), ("cheque", .CHECK),
   ("check", .CHECK)]

inductive PMInput where
  | none
  | pm (p : PaymentMethod)
  | str (s : String)

/-- `InvoiceData.validate_payment_method` (schemas.py lines 301-345). -/
def validate_payment_method : PMInput → Option PaymentMethod
  | .none => Option.none
  | .pm p => some p
  | .str s =>
    let vLower := pyStrip (pyLower s)
    match payment_mappings.lookup vLower with
    | some p => some p
    | Option.none =>
      match paymentMembers.find? (fun p => vLower == pyLower p.value) with
      | some p => some p
      | Option.none => some PaymentMethod.OTHER

inductive ExpenseCategory where
  | FOOD | FUEL | UTILITIES | TRANSPORTATION | GROCERIES
  | ENTERTAINMENT | HEALTHCARE | SHOPPING | SERVICES | OTHER
  deriving DecidableEq, Repr

def ExpenseCategory.value : ExpenseCategory → String
  | .FOOD => "food"
  | .FUEL => "fuel"
  | .UTILITIES => "utilities"
  | .TRANSPORTATION => "transportation"
  | .GROCERIES => "groceries"
  | .ENTERTAINMENT => "entertainment"
  | .HEALTHCARE => "healthcare"
  | .SHOPPING => "shopping"
  | .SERVICES => "services"
  | .OTHER => "other"

def categoryMembers : List ExpenseCategory :=
  [.FOOD, .FUEL, .UTILITIES, .TRANSPORTATION, .GROCERIES,
   .ENTERTAINMENT, .HEALTHCARE, .SHOPPING, .SERVICES, .OTHER]

/-- The `category_mappings` dict, in source order. -/
def category_mappings : List (String × ExpenseCategory) :=
  [("beverage", .FOOD), ("beverages", .FOOD), ("drinks", .FOOD),
   ("drink", .FOOD),
   ("clothing", .SHOPPING), ("clothes", .SHOPPING), ("apparel", .SHOPPING),
   ("fashion", .SHOPPING), ("accessories", .SHOPPING),
   ("stationery", .SHOPPING), ("office", .SHOPPING),
   ("office supplies", .SHOPPING), ("supplies", .SHOPPING),
   ("electronics", .SHOPPING), ("tech", .SHOPPING), ("technology", .SHOPPING),
   ("personal care", .HEALTHCARE), ("hygiene", .HEALTHCARE),
   ("beauty", .SHOPPING), ("cosmetics", .SHOPPING),
   ("household", .SHOPPING), ("home", .SHOPPING), ("furniture", .SHOPPING),
   ("appliances", .SHOPPING),
   ("restaurant", .FOOD), ("dining", .FOOD), ("takeout", .FOOD),
   ("fast food", .FOOD)]

inductive CatInput where
  | none
  | cat (c : ExpenseCategory)
  | str (s : String)

/-- `ExpenseItem.validate_category` (schemas.py lines 74-141). -/
def validate_category : CatInput → ExpenseCategory
  | .none => ExpenseCategory.OTHER
  | .cat c => c
  | .str s =>
    let vLower := pyStrip (pyLower s)
    match category_mappings.lookup vLower with
    | some c => c
    | Option.none =>
      match categoryMembers.find? (fun c => vLower == pyLower c.value) with
      | some c => c
      | Option.none => ExpenseCategory.OTHER

theorem pyLower_pm_value (p : PaymentMethod) :
    pyLower (PaymentMethod.value p) = PaymentMethod.value p := by
  cases p <;> rfl

theorem pyLower_cat_value (c : ExpenseCategory) :
    pyLower (ExpenseCategory.value c) = ExpenseCategory.value c := by
  cases c <;> rfl

/-- C3: the payment method validator is total and never raises: None is
returned as None, an enum member unchanged, a string is normalized
(lower-cased, stripped) and resolved through the mapping table, then
through the enum values, and everything else becomes OTHER; the listed
example variants map as the claim states. -/
theorem C3_validate_payment_method :
    validate_payment_method PMInput.none = none ∧
    (∀ p, validate_payment_method (PMInput.pm p) = some p) ∧
    (∀ s, (validate_payment_method (PMInput.str s)).isSome = true) ∧
    (∀ s p, payment_mappings.lookup (pyStrip (pyLower s)) = some p →
      validate_payment_method (PMInput.str s) = some p) ∧
    (∀ s p, payment_mappings.lookup (pyStrip (pyLower s)) = none →
      pyStrip (pyLower s) = PaymentMethod.value p →
      validate_payment_method (PMInput.str s) = some p) ∧
    (∀ s, payment_mappings.lookup (pyStrip (pyLower s)) = none →
      (∀ p : PaymentMethod, pyStrip (pyLower s) ≠ PaymentMethod.value p) →
      validate_payment_method (PMInput.str s) = some PaymentMethod.OTHER) ∧
    (validate_payment_method (PMInput.str ("Visa")) =
        some PaymentMethod.CREDIT_CARD ∧
     validate_payment_method (PMInput.str ("mastercard")) =
        some PaymentMethod.CREDIT_CARD ∧
     validate_payment_method (PMInput.str ("AMEX")) =
        some PaymentMethod.CREDIT_CARD ∧
     validate_payment_method (PMInput.str ("debit")) =
        some PaymentMethod.DEBIT_CARD ∧
     validate_payment_method (PMInput.str ("e-transfer")) =
        some PaymentMethod.BANK_TRANSFER ∧
     validate_payment_method (PMInput.str ("wire")) =
        some PaymentMethod.BANK_TRANSFER ∧
     validate_payment_method (PMInput.str ("Apple Pay")) =
        some PaymentMethod.MOBILE_PAYMENT ∧
     validate_payment_method (PMInput.str ("PayPal")) =
        some PaymentMethod.MOBILE_PAYMENT ∧
     validate_payment_method (PMInput.str ("venmo")) =
        some PaymentMethod.MOBILE_PAYMENT ∧
     validate_payment_method (PMInput.str ("cheque")) =
        some PaymentMethod.CHECK ∧
     validate_payment_method (PMInput.str ("crypto wallet")) =
        some PaymentMethod.OTHER) := by
  refine ⟨rfl, fun p => rfl, ?_, ?_, ?_, ?_, ?_⟩
  · intro s
    simp only [validate_payment_method]
    cases h1 : payment_mappings.lookup (pyStrip (pyLower s)) with
    | some p => simp
    | none =>
      cases h2 : paymentMembers.find?
          (fun p => pyStrip (pyLower s) == pyLower (PaymentMethod.value p)) with
      | some p => simp [h2]
      | none => simp [h2]
  · intro s p h1
    simp [validate_payment_method, h1]
  · intro s p h1 h2
    simp only [validate_payment_method]
    rw [h2]
    cases p <;> decide
  · intro s h1 h2
    have hf : paymentMembers.find?
        (fun p => pyStrip (pyLower s) == pyLower (PaymentMethod.value p)) =
          none := by
      rw [List.find?_eq_none]
      intro p hp
      simp only [pyLower_pm_value, beq_iff_eq]
      exact h2 p
    simp [validate_payment_method, h1, hf]
  · exact ⟨by decide, by decide, by decide, by decide, by decide, by decide,
      by decide, by decide, by decide, by decide, by decide⟩

theorem C3_validate_payment_method_witness :
    validate_payment_method (PMInput.str ("Mobile_Payment")) =
      some PaymentMethod.MOBILE_PAYMENT :=
  (C3_validate_payment_method).2.2.2.2.1 ("Mobile_Payment")
    PaymentMethod.MOBILE_PAYMENT (by decide) (by decide)

/-- C4: the category validator is a total function into `ExpenseCategory`:
None maps to OTHER, an enum member is returned unchanged, a string is
normalized and resolved first in the synonym table, then against the enum
values, and every unmatched input maps to OTHER; it never raises, and the
listed example synonyms map as the claim states. -/
theorem C4_validate_category :
    validate_category CatInput.none = ExpenseCategory.OTHER ∧
    (∀ c, validate_category (CatInput.cat c) = c) ∧
    (∀ s c, category_mappings.lookup (pyStrip (pyLower s)) = some c →
      validate_category (CatInput.str s) = c) ∧
    (∀ s c, category_mappings.lookup (pyStrip (pyLower s)) = none →
      pyStrip (pyLower s) = ExpenseCategory.value c →
      validate_category (CatInput.str s) = c) ∧
    (∀ s, category_mappings.lookup (pyStrip (pyLower s)) = none →
      (∀ c : ExpenseCategory, pyStrip (pyLower s) ≠ ExpenseCategory.value c) →
      validate_category (CatInput.str s) = ExpenseCategory.OTHER) ∧
    (validate_category (CatInput.str ("beverages")) = ExpenseCategory.FOOD ∧
     validate_category (CatInput.str ("Clothing")) = ExpenseCategory.SHOPPING ∧
     validate_category (CatInput.str ("electronics")) = ExpenseCategory.SHOPPING ∧
     validate_category (CatInput.str ("household")) = ExpenseCategory.SHOPPING ∧
     validate_category (CatInput.str ("restaurant")) = ExpenseCategory.FOOD ∧
     validate_category (CatInput.str ("takeout")) = ExpenseCategory.FOOD ∧
     validate_category (CatInput.str ("hygiene")) = ExpenseCategory.HEALTHCARE ∧
     validate_category (CatInput.str ("unicorn rides")) = ExpenseCategory.OTHER) := by
  refine ⟨rfl, fun c => rfl, ?_, ?_, ?_, ?_⟩
  · intro s c h1
    simp [validate_category, h1]
  · intro s c h1 h2
    simp only [validate_category]
    rw [h2]
    cases c <;> decide
  · intro s h1 h2
    have hf : categoryMembers.find?
        (fun c => pyStrip (pyLower s) == pyLower (ExpenseCategory.value c)) =
          none := by
      rw [List.find?_eq_none]
      intro c hc
      simp only [pyLower_cat_value, beq_iff_eq]
      exact h2 c
    simp [validate_category, h1, hf]
  · exact ⟨by decide, by decide, by decide, by decide, by decide, by decide,
      by decide, by decide⟩

theorem C4_validate_category_witness :
    validate_category (CatInput.str ("  Groceries ")) =
      ExpenseCategory.GROCERIES :=
  (C4_validate_category).2.2.2.1 ("  Groceries ") ExpenseCategory.GROCERIES
    (by decide) (by decide)

end Finvo

namespace Finvo

/-! ### `DocumentLoaderService` (document_loader.py)

The OCR engine, the LangChain loaders and the file system are external:
they enter as explicit parameters (file existence, size in bytes, suffix,
and each underlying loader's outcome).  Documents are modelled by their
`page_content` strings. -/

inductive LoaderError where
  | docLoader (msg : String)
  | unsupported (msg : String)
  | fileSize (msg : String)
  deriving DecidableEq, Repr

def LoaderError.msg : LoaderError → String
  | .docLoader m => m
  | .unsupported m => m
  | .fileSize m => m

def SUPPORTED_IMAGE_FORMATS : List String :=
  [".jpg", ".jpeg", ".png", ".gif", ".bmp", ".webp", ".tiff"]

/-- `_load_pdf`: any failure of the underlying `PyPDFLoader` is wrapped in
a `DocumentLoaderError`. -/
def load_pdf (pdfResult : Except String (List String)) :
    Except LoaderError (List String) :=
  match pdfResult with
  | .ok docs => .ok docs
  | .error e => .error (.docLoader ("Failed to load PDF: " ++ e))

/-- `_load_image` viewed from `load_from_path`: any failure is wrapped in
a `DocumentLoaderError` (the fallback chain inside is claim C7). -/
def load_image_wrap (imgResult : Except String (List String)) :
    Except LoaderError (List String) :=
  match imgResult with
  | .ok docs => .ok docs
  | .error e => .error (.docLoader ("Failed to load image: " ++ e))

/-- `DocumentLoaderService.load_from_path` (lines 41-87): existence check,
size check against `max_file_size_mb` megabytes, dispatch on the
lower-cased suffix, and the except-clause that re-raises
`UnsupportedFileFormatError` and `FileSizeError` unchanged while wrapping
everything else in `DocumentLoaderError`. -/
def load_from_path (maxMb : Nat) (fileIsThere : Bool) (sizeBytes : Nat)
    (suffix : String) (pdfResult imgResult : Except String (List String)) :
    Except LoaderError (List String) :=
  if !fileIsThere then
    .error (.docLoader ("File not found: " ++ suffix))
  else if sizeBytes > maxMb * 1024 * 1024 then
    .error (.fileSize ("File too large"))
  else
    let ext := pyLower suffix
    let attempt : Except LoaderError (List String) :=
      if ext == ".pdf" then load_pdf pdfResult
      else if SUPPORTED_IMAGE_FORMATS.contains ext then
        load_image_wrap imgResult
      else .error (.unsupported ("Unsupported file format: " ++ ext))
    match attempt with
    | .ok docs => .ok docs
    | .error e =>
      match e with
      | .unsupported m => .error (.unsupported m)
      | .fileSize m => .error (.fileSize m)
      | .docLoader m =>
        .error (.docLoader ("Failed to load document: " ++ m))

/-- C5: `load_from_path` raises exactly one of its documented errors in a
fixed precedence: `DocumentLoaderError` when the file does not exist, else
`FileSizeError` when the size exceeds the configured megabyte limit, else
dispatch on the lower-cased extension (.pdf to the PDF loader, the seven
image extensions to the image loader, anything else
`UnsupportedFileFormatError`); `UnsupportedFileFormatError` and
`FileSizeError` propagate unchanged while loader failures are wrapped in
`DocumentLoaderError`. -/
theorem C5_load_from_path (maxMb sizeBytes : Nat) (fileIsThere : Bool)
    (suffix : String) (pdfResult imgResult : Except String (List String)) :
    (fileIsThere = false →
      ∃ m, load_from_path maxMb fileIsThere sizeBytes suffix pdfResult
          imgResult = .error (.docLoader m)) ∧
    (fileIsThere = true → sizeBytes > maxMb * 1024 * 1024 →
      ∃ m, load_from_path maxMb fileIsThere sizeBytes suffix pdfResult
          imgResult = .error (.fileSize m)) ∧
    (fileIsThere = true → sizeBytes ≤ maxMb * 1024 * 1024 →
      pyLower suffix = ".pdf" →
      ((∀ docs, pdfResult = .ok docs →
          load_from_path maxMb fileIsThere sizeBytes suffix pdfResult
            imgResult = .ok docs) ∧
       (∀ e, pdfResult = .error e →
          ∃ m, load_from_path maxMb fileIsThere sizeBytes suffix pdfResult
              imgResult = .error (.docLoader m)))) ∧
    (fileIsThere = true → sizeBytes ≤ maxMb * 1024 * 1024 →
      SUPPORTED_IMAGE_FORMATS.contains (pyLower suffix) = true →
      ((∀ docs, imgResult = .ok docs →
          load_from_path maxMb fileIsThere sizeBytes suffix pdfResult
            imgResult = .ok docs) ∧
       (∀ e, imgResult = .error e →
          ∃ m, load_from_path maxMb fileIsThere sizeBytes suffix pdfResult
              imgResult = .error (.docLoader m)))) ∧
    (fileIsThere = true → sizeBytes ≤ maxMb * 1024 * 1024 →
      pyLower suffix ≠ ".pdf" →
      SUPPORTED_IMAGE_FORMATS.contains (pyLower suffix) = false →
      ∃ m, load_from_path maxMb fileIsThere sizeBytes suffix pdfResult
          imgResult = .error (.unsupported m)) := by
  refine ⟨?_, ?_, ?_, ?_, ?_⟩
  · intro h; subst h
    exact ⟨_, rfl⟩
  · intro h hsz; subst h
    refine ⟨("File too large"), ?_⟩
    simp only [load_from_path, Bool.not_true, Bool.false_eq_true, if_false]
    rw [if_pos hsz]
  · intro h hsz hext
    constructor
    · intro docs hpdf
      simp only [load_from_path, h, Bool.not_true, Bool.false_eq_true,
        if_false, hext]
      rw [if_neg (by omega)]
      simp [hpdf, load_pdf]
    · intro e hpdf
      refine ⟨("Failed to load document: " ++ ("Failed to load PDF: " ++ e)), ?_⟩
      simp only [load_from_path, h, Bool.not_true, Bool.false_eq_true,
        if_false, hext]
      rw [if_neg (by omega)]
      simp [hpdf, load_pdf]
  · intro h hsz hext
    have hnotpdf : (pyLower suffix == ".pdf") = false := by
      cases hpp : pyLower suffix == ".pdf" with
      | true =>
        exfalso
        have hq : pyLower suffix = ".pdf" := by simpa using hpp
        rw [hq] at hext
        cases hext
      | false => rfl
    constructor
    · intro docs himg
      simp only [load_from_path, h, Bool.not_true, Bool.false_eq_true,
        if_false, hnotpdf, hext]
      rw [if_neg (by omega)]
      simp [himg, load_image_wrap]
    · intro e himg
      refine ⟨("Failed to load document: " ++ ("Failed to load image: " ++ e)), ?_⟩
      simp only [load_from_path, h, Bool.not_true, Bool.false_eq_true,
        if_false, hnotpdf, hext]
      rw [if_neg (by omega)]
      simp [himg, load_image_wrap]
  · intro h hsz hpdf hext
    have hnotpdf : (pyLower suffix == ".pdf") = false := by
      cases hpp : pyLower suffix == ".pdf" with
      | true =>
        exfalso
        exact hpdf (by simpa using hpp)
      | false => rfl
    refine ⟨("Unsupported file format: " ++ pyLower suffix), ?_⟩
    simp only [load_from_path, h, Bool.not_true, Bool.false_eq_true,
      if_false, hnotpdf, hext]
    rw [if_neg (by omega)]

theorem C5_load_from_path_witness :
    (∃ m, load_from_path 10 true 1000 (".TXT") (.ok []) (.ok []) =
      Except.error (LoaderError.unsupported m)) ∧
    (∃ m, load_from_path 10 true (11 * 1024 * 1024) (".pdf") (.ok [])
      (.ok []) = Except.error (LoaderError.fileSize m)) ∧
    load_from_path 10 true 1000 (".JPG") (.ok []) (.ok ["scan text"]) =
      Except.ok (["scan text"]) :=
  ⟨(C5_load_from_path 10 1000 true (".TXT") (.ok []) (.ok [])).2.2.2.2
      rfl (by omega) (by decide) (by decide),
   (C5_load_from_path 10 (11 * 1024 * 1024) true (".pdf") (.ok [])
      (.ok [])).2.1 rfl (by omega),
   ((C5_load_from_path 10 1000 true (".JPG") (.ok [])
      (.ok ["scan text"])).2.2.2.1 rfl (by omega) (by decide)).1
      (["scan text"]) rfl⟩

end Finvo

namespace Finvo

/-! ### `_extract_with_tesseract` line merge (document_loader.py 285-301)

The OCR engine's per-strategy outputs enter as a list of raw text blocks
(standard, logo region, single line — a strategy that raised is simply
absent, exactly as in the source).  The merge splits each block on
newlines, strips each line, drops empty lines, and appends a line to the
accumulator only when it is not already present. -/

def nlChar : Char := Char.ofNat 10

def nlString : String := String.mk [nlChar]

/-- Python `text.split` on a newline, then strip each line and keep the
non-empty ones. -/
def clean_lines (text : String) : List String :=
  ((text.splitOn nlString).map pyStrip).filter (fun l => l ≠ "")

/-- The accumulating loop: append each line unless already present. -/
def addLines (acc : List String) (ls : List String) : List String :=
  ls.foldl (fun a l => if l ∈ a then a else a ++ [l]) acc

/-- `combined_lines` of `_extract_with_tesseract`. -/
def merge_lines (texts : List String) : List String :=
  texts.foldl (fun combined text => addLines combined (clean_lines text)) []

/-- The merged multi-strategy output text. -/
def extract_with_tesseract_combined (texts : List String) : String :=
  String.intercalate nlString (merge_lines texts)

/-- Specification-side first-occurrence deduplication. -/
def firstOccDedup : List String → List String
  | [] => []
  | x :: xs => x :: firstOccDedup (xs.filter (fun y => y ≠ x))
  termination_by l => l.length
  decreasing_by
    simp only [List.length_cons]
    exact Nat.lt_succ_of_le (xs.length_filter_le _)

theorem mem_firstOccDedup (l : List String) (y : String) :
    y ∈ firstOccDedup l → y ∈ l := by
  induction l using firstOccDedup.induct with
  | case1 => intro h; rw [firstOccDedup] at h; cases h
  | case2 x xs ih =>
    intro h
    rw [firstOccDedup] at h
    rcases List.mem_cons.mp h with h1 | h1
    · simp [h1]
    · exact List.mem_cons_of_mem _ ((List.mem_filter.mp (ih h1)).1)

theorem nodup_firstOccDedup (l : List String) : (firstOccDedup l).Nodup := by
  induction l using firstOccDedup.induct with
  | case1 => rw [firstOccDedup]; exact List.nodup_nil
  | case2 x xs ih =>
    rw [firstOccDedup]
    refine List.nodup_cons.mpr ⟨?_, ih⟩
    intro hx
    have := (List.mem_filter.mp (mem_firstOccDedup _ _ hx)).2
    simp at this

theorem addLines_eq (ls : List String) : ∀ acc : List String, acc.Nodup →
    addLines acc ls = acc ++ firstOccDedup (ls.filter (fun l => l ∉ acc)) := by
  induction ls with
  | nil => intro acc hnd; simp [addLines, firstOccDedup]
  | cons l ls ih =>
    intro acc hnd
    by_cases hmem : l ∈ acc
    · have h1 : addLines acc (l :: ls) = addLines acc ls := by
        simp [addLines, hmem]
      have h2 : (l :: ls).filter (fun x => decide (x ∉ acc)) =
          ls.filter (fun x => decide (x ∉ acc)) := by
        simp [List.filter_cons, hmem]
      rw [h1, h2, ih acc hnd]
    · have h1 : addLines acc (l :: ls) = addLines (acc ++ [l]) ls := by
        simp [addLines, hmem]
      have h2 : (l :: ls).filter (fun x => decide (x ∉ acc)) =
          l :: ls.filter (fun x => decide (x ∉ acc)) := by
        simp [List.filter_cons, hmem]
      have hnd2 : (acc ++ [l]).Nodup := by
        simp [List.nodup_append, hnd, hmem]
      rw [h1, h2, ih (acc ++ [l]) hnd2, firstOccDedup]
      have h3 : (ls.filter (fun x => decide (x ∉ acc))).filter
            (fun y => decide (y ≠ l)) =
          ls.filter (fun x => decide (x ∉ acc ++ [l])) := by
        rw [List.filter_filter]
        apply List.filter_congr
        intro x hx
        by_cases hxl : x = l <;> by_cases hxa : x ∈ acc <;>
          simp [hxl, hxa]
      rw [h3]
      simp

theorem addLines_append (acc : List String) (xs ys : List String) :
    addLines acc (xs ++ ys) = addLines (addLines acc xs) ys := by
  simp [addLines, List.foldl_append]

theorem merge_lines_eq_dedup (texts : List String) :
    merge_lines texts = firstOccDedup ((texts.map clean_lines).flatten) := by
  have key : ∀ ts : List String, ∀ acc : List String, acc.Nodup →
      ts.foldl (fun combined text => addLines combined (clean_lines text)) acc =
        addLines acc ((ts.map clean_lines).flatten) := by
    intro ts
    induction ts with
    | nil => intro acc hnd; simp [addLines]
    | cons t ts ih =>
      intro acc hnd
      have hnd2 : (addLines acc (clean_lines t)).Nodup := by
        rw [addLines_eq _ acc hnd]
        refine List.Nodup.append hnd (nodup_firstOccDedup _) ?_
        intro x hx hy
        have := List.mem_filter.mp (mem_firstOccDedup _ _ hy)
        simp at this
        exact this.2 hx
      simp only [List.foldl_cons, List.map_cons, List.flatten_cons]
      rw [ih _ hnd2, addLines_append]
  rw [merge_lines, key texts [] List.nodup_nil]
  have h0 : ∀ ls : List String, ls.filter (fun l => decide (l ∉ ([] : List String))) = ls := by
    intro ls
    apply List.filter_eq_self.mpr
    intro a _
    simp
  rw [addLines_eq _ [] List.nodup_nil]
  rw [h0]
  rfl

/-- C6: the multi-strategy Tesseract merge returns the newline-join of
every non-empty stripped line produced by the strategies in order, keeping
only the first occurrence of each distinct line: the merged line list is
exactly the first-occurrence deduplication of the concatenated cleaned
lines, hence no line appears twice and lines appear in first-occurrence
order. -/
theorem C6_extract_with_tesseract_merge (texts : List String) :
    merge_lines texts = firstOccDedup ((texts.map clean_lines).flatten) ∧
    (merge_lines texts).Nodup ∧
    extract_with_tesseract_combined texts =
      String.intercalate nlString
        (firstOccDedup ((texts.map clean_lines).flatten)) := by
  refine ⟨merge_lines_eq_dedup texts, ?_, ?_⟩
  · rw [merge_lines_eq_dedup texts]
    exact nodup_firstOccDedup _
  · rw [extract_with_tesseract_combined, merge_lines_eq_dedup texts]

end Finvo

namespace Finvo

/-! ### `_load_image` fallback chain (document_loader.py 157-217)

Documents are their `page_content` strings.  The three external outcomes
enter as parameters: the multi-strategy Tesseract text (that extractor
catches its own exceptions, returning an empty string), the default
`UnstructuredImageLoader` document list, and the minimal-configuration
`UnstructuredImageLoader` document list (evaluated only on the last-resort
branch). -/

def load_image_select (tessText : String) (fallbackDocs finalDocs : List String) :
    List String :=
  if (pyStrip tessText).length > 20 then [tessText]
  else
    let documents := fallbackDocs
    if documents.isEmpty ∨ (pyStrip (documents.headD "")).length < 10 then
      if ¬ finalDocs.isEmpty ∧
          (pyStrip (finalDocs.headD "")).length >
            (pyStrip (documents.headD "")).length then
        finalDocs
      else documents
    else documents

/-- C7: the ordered fallback chain of `_load_image`: the direct Tesseract
text becomes the single document exactly when its stripped length exceeds
20 characters; otherwise the `UnstructuredImageLoader` result is used, and
when it yields no document or fewer than 10 stripped characters, the
minimal-configuration attempt replaces it exactly when it is non-empty and
its first document has strictly more stripped content. -/
theorem C7_load_image_fallback (tessText : String)
    (fallbackDocs finalDocs : List String) :
    ((pyStrip tessText).length > 20 →
      load_image_select tessText fallbackDocs finalDocs = [tessText]) ∧
    (¬ (pyStrip tessText).length > 20 →
      ((¬ fallbackDocs.isEmpty = true →
          (pyStrip (fallbackDocs.headD "")).length ≥ 10 →
          load_image_select tessText fallbackDocs finalDocs = fallbackDocs) ∧
       ((fallbackDocs.isEmpty = true ∨
           (pyStrip (fallbackDocs.headD "")).length < 10) →
         ((¬ finalDocs.isEmpty = true ∧
             (pyStrip (finalDocs.headD "")).length >
               (pyStrip (fallbackDocs.headD "")).length →
           load_image_select tessText fallbackDocs finalDocs = finalDocs) ∧
          (¬ (¬ finalDocs.isEmpty = true ∧
              (pyStrip (finalDocs.headD "")).length >
                (pyStrip (fallbackDocs.headD "")).length) →
           load_image_select tessText fallbackDocs finalDocs =
             fallbackDocs))))) := by
  constructor
  · intro hlen
    simp only [load_image_select]
    rw [if_pos hlen]
  · intro hlen
    constructor
    · intro hne hge
      simp only [load_image_select]
      rw [if_neg hlen]
      rw [if_neg (by push_neg; exact ⟨by simpa using hne, by omega⟩)]
    · intro hcond
      constructor
      · intro hrepl
        simp only [load_image_select]
        rw [if_neg hlen, if_pos (by simpa using hcond), if_pos hrepl]
      · intro hrepl
        simp only [load_image_select]
        rw [if_neg hlen, if_pos (by simpa using hcond), if_neg hrepl]

theorem C7_load_image_fallback_witness :
    load_image_select ("NET 23          SALE 718.63 CR") [] [] =
      [("NET 23          SALE 718.63 CR")] ∧
    load_image_select ("short") [("UNSTRUCTURED OCR RESULT TEXT")] [] =
      [("UNSTRUCTURED OCR RESULT TEXT")] ∧
    load_image_select ("short") [("tiny")] [("A BIT LONGER TEXT")] =
      [("A BIT LONGER TEXT")] :=
  ⟨(C7_load_image_fallback ("NET 23          SALE 718.63 CR") [] []).1
      (by decide),
   ((C7_load_image_fallback ("short") [("UNSTRUCTURED OCR RESULT TEXT")]
      []).2 (by decide)).1 (by decide) (by decide),
   (((C7_load_image_fallback ("short") [("tiny")]
      [("A BIT LONGER TEXT")]).2 (by decide)).2 (by decide)).1
      (by decide)⟩

end Finvo

namespace Finvo

/-! ### Legacy extractor JSON repair (AI-Modules/invoice_extractor.py 156-167)

`json.loads` is external: it enters as an abstract `parse` function into an
arbitrary result type (`none` models a raised `JSONDecodeError`).  The
exception text of a failed retry is abstracted by a fixed message. -/

def openBrace : Char := Char.ofNat 123

def closeBrace : Char := Char.ofNat 125

/-- Python `str.find` for a single character: index of the first
occurrence. -/
def firstIdx (c : Char) : List Char → Option Nat
  | [] => none
  | x :: xs => if x == c then some 0 else (firstIdx c xs).map (· + 1)

/-- Python `str.rfind` for a single character: index of the last
occurrence. -/
def lastIdx (c : Char) (cs : List Char) : Option Nat :=
  (firstIdx c cs.reverse).map (fun i => cs.length - 1 - i)

/-- Python slice `s[i:j]` for `0 <= i, j`. -/
def pySlice (s : String) (i j : Nat) : String :=
  String.mk ((s.data.drop i).take (j - i))

def couldNotParseMsg : String := "Could not parse JSON from OpenAI response"

/-- Abstraction of `str(json.JSONDecodeError)` raised by the retry. -/
def jsonDecodeMsg : String := "Expecting value in repaired JSON"

/-- The parse-and-repair step of `extract_from_image`: parse the raw
completion; on failure locate the first open brace and the last close
brace, and when both exist retry on the inclusive slice between them;
otherwise raise the could-not-parse `ValueError`. -/
def parse_with_repair {J : Type} (parse : String → Option J)
    (content : String) : Except String J :=
  match parse content with
  | some j => .ok j
  | none =>
    match firstIdx openBrace content.data, lastIdx closeBrace content.data with
    | some i, some k =>
      match parse (pySlice content i (k + 1)) with
      | some j => .ok j
      | none => .error jsonDecodeMsg
    | some _, none => .error couldNotParseMsg
    | none, _ => .error couldNotParseMsg

theorem firstIdx_spec (c : Char) : ∀ (cs : List Char) (i : Nat),
    firstIdx c cs = some i →
    cs[i]? = some c ∧ ∀ j, j < i → cs[j]? ≠ some c := by
  intro cs
  induction cs with
  | nil => intro i h; cases h
  | cons x xs ih =>
    intro i h
    rw [firstIdx] at h
    by_cases hx : (x == c) = true
    · rw [if_pos hx] at h
      cases h
      refine ⟨by simpa using hx, ?_⟩
      intro j hj
      omega
    · rw [if_neg hx] at h
      cases hfi : firstIdx c xs with
      | none => rw [hfi] at h; cases h
      | some i0 =>
        rw [hfi] at h
        simp only [Option.map_some', Option.some.injEq] at h
        subst h
        obtain ⟨h1, h2⟩ := ih i0 hfi
        refine ⟨by simpa using h1, ?_⟩
        intro j hj
        cases j with
        | zero =>
          simp only [List.getElem?_cons_zero, ne_eq, Option.some.injEq]
          intro hxc
          exact hx (by simp [hxc])
        | succ j0 =>
          simpa using h2 j0 (by omega)

theorem getElem?_some_lt (cs : List Char) (i : Nat) (c : Char)
    (h : cs[i]? = some c) : i < cs.length := by
  by_contra hge
  rw [List.getElem?_eq_none (by omega)] at h
  cases h

theorem lastIdx_spec (c : Char) (cs : List Char) (k : Nat)
    (h : lastIdx c cs = some k) :
    cs[k]? = some c ∧ ∀ j, k < j → cs[j]? ≠ some c := by
  unfold lastIdx at h
  cases hfi : firstIdx c cs.reverse with
  | none => rw [hfi] at h; cases h
  | some i =>
    rw [hfi] at h
    simp only [Option.map_some', Option.some.injEq] at h
    subst h
    obtain ⟨h1, h2⟩ := firstIdx_spec c cs.reverse i hfi
    have hlen : i < cs.length := by
      have hl := getElem?_some_lt _ _ _ h1
      simpa using hl
    have hrev : ∀ m, m < cs.length →
        (cs.reverse)[m]? = cs[cs.length - 1 - m]? := by
      intro m hm
      rw [List.getElem?_reverse (by simpa using hm)]
    constructor
    · rw [← hrev i hlen]; exact h1
    · intro j hj hcj
      by_cases hjlen : j < cs.length
      · have hj2 : cs.length - 1 - j < i := by omega
        have hne := h2 (cs.length - 1 - j) hj2
        rw [hrev _ (by omega)] at hne
        have heq : cs.length - 1 - (cs.length - 1 - j) = j := by omega
        rw [heq] at hne
        exact hne hcj
      · rw [List.getElem?_eq_none (by omega)] at hcj
        cases hcj

/-- C8: the legacy extractor repairs malformed LLM JSON: a parse failure of
the raw completion is retried on the inclusive slice from the first open
brace to the last close brace (the located indices really are the first
and the last such characters), and the could-not-parse `ValueError`
(caught into the error dictionary) is raised exactly when the raw text
fails to parse and lacks one of the braces. -/
theorem C8_parse_with_repair {J : Type} (parse : String → Option J)
    (content : String) :
    (∀ j, parse content = some j →
      parse_with_repair parse content = .ok j) ∧
    (parse content = none →
      ∀ i k, firstIdx openBrace content.data = some i →
        lastIdx closeBrace content.data = some k →
        (content.data[i]? = some openBrace ∧
          (∀ j, j < i → content.data[j]? ≠ some openBrace) ∧
          content.data[k]? = some closeBrace ∧
          (∀ j, k < j → content.data[j]? ≠ some closeBrace)) ∧
        (∀ j, parse (pySlice content i (k + 1)) = some j →
          parse_with_repair parse content = .ok j) ∧
        (parse (pySlice content i (k + 1)) = none →
          parse_with_repair parse content = .error jsonDecodeMsg)) ∧
    (parse_with_repair parse content = .error couldNotParseMsg ↔
      parse content = none ∧ (firstIdx openBrace content.data = none ∨
        lastIdx closeBrace content.data = none)) := by
  refine ⟨?_, ?_, ?_⟩
  · intro j h
    simp [parse_with_repair, h]
  · intro hn i k hi hk
    obtain ⟨ho1, ho2⟩ := firstIdx_spec openBrace content.data i hi
    obtain ⟨hc1, hc2⟩ := lastIdx_spec closeBrace content.data k hk
    refine ⟨⟨ho1, ho2, hc1, hc2⟩, ?_, ?_⟩
    · intro j hj
      simp [parse_with_repair, hn, hi, hk, hj]
    · intro hj
      simp [parse_with_repair, hn, hi, hk, hj]
  · constructor
    · intro h
      cases hp : parse content with
      | some j => simp [parse_with_repair, hp] at h
      | none =>
        refine ⟨rfl, ?_⟩
        by_contra hor
        push_neg at hor
        obtain ⟨h1, h2⟩ := hor
        obtain ⟨i, hi⟩ := Option.ne_none_iff_exists'.mp h1
        obtain ⟨k, hk⟩ := Option.ne_none_iff_exists'.mp h2
        cases hps : parse (pySlice content i (k + 1)) with
        | some j => simp [parse_with_repair, hp, hi, hk, hps] at h
        | none =>
          simp [parse_with_repair, hp, hi, hk, hps] at h
          exact absurd h (by decide)
    · intro hpair
      obtain ⟨hn, hor⟩ := hpair
      rcases hor with h1 | h1
      · simp [parse_with_repair, hn, h1]
      · cases hfi : firstIdx openBrace content.data with
        | none => simp [parse_with_repair, hn, hfi]
        | some i => simp [parse_with_repair, hn, hfi, h1]

end Finvo

namespace Finvo

theorem C8_parse_with_repair_witness :
    parse_with_repair
      (fun s => if s = String.mk [openBrace, 'y', closeBrace] then some 7
        else Option.none)
      (String.mk ['x', 'x', openBrace, 'y', closeBrace, 'z']) =
      Except.ok 7 :=
  ((C8_parse_with_repair
      (fun s => if s = String.mk [openBrace, 'y', closeBrace] then some 7
        else Option.none)
      (String.mk ['x', 'x', openBrace, 'y', closeBrace, 'z'])).2.1
    (by decide) 2 4 (by decide) (by decide)).2.1 7 (by decide)

/-! ### Legacy `InvoiceExtractor` public interface (AI-Modules/invoice_extractor.py)

A result dictionary is modelled by its claim-relevant keys: the optional
`error` entry and the optional `confidence_score` entry (the success
payload of a parsed completion carries whatever the parse produced for
those keys; the multi-page success dictionary has no `error` key).  The
OpenAI call, `json.loads` and `pdf_to_images` are external parameters; the
existence check has been performed on the real file system.  Amounts are
rationals. -/

structure Dct where
  errKey : Option String
  confKey : Option ℚ
  deriving DecidableEq, Repr

/-- The error dictionary the legacy extractor builds on every failure
path. -/
def mkErrDct (m : String) : Dct := { errKey := some m, confKey := some 0 }

/-- `extract_from_image` (lines 84-173): the API call either raises
(`Except.error`, wrapped into an error dictionary with the exception text)
or yields the completion text, which goes through parse-and-repair; any
raised error is caught into an error dictionary. -/
def legacy_extract_from_image (parse : String → Option Dct)
    (apiResult : Except String String) : Dct :=
  match apiResult with
  | .error e => mkErrDct ("Failed to extract data: " ++ e)
  | .ok content =>
    match parse_with_repair parse content with
    | .ok d => d
    | .error m => mkErrDct ("Failed to extract data: " ++ m)

def legacy_image_formats : List String :=
  [".jpg", ".jpeg", ".png", ".gif", ".bmp", ".webp"]

/-- `extract_from_file` (lines 175-211).  `pdfPages` carries one API
outcome per image found in the PDF. -/
def legacy_extract_from_file (parse : String → Option Dct)
    (fileIsThere : Bool) (suffix : String)
    (imageApi : Except String String)
    (pdfPages : List (Except String String)) : Dct :=
  if !fileIsThere then mkErrDct ("File not found")
  else
    let ext := pyLower suffix
    if legacy_image_formats.contains ext then
      legacy_extract_from_image parse imageApi
    else if ext == ".pdf" then
      if pdfPages.isEmpty then mkErrDct ("No images found in PDF")
      else
        let allExtractions := (pdfPages.map
          (legacy_extract_from_image parse)).filter
            (fun d => d.errKey.isNone)
        if allExtractions.isEmpty then
          mkErrDct ("Failed to extract data from PDF pages")
        else if allExtractions.length == 1 then
          allExtractions.headD (mkErrDct "")
        else
          { errKey := none,
            confKey := some (((allExtractions.map
              (fun d => d.confKey.getD 0)).sum) / allExtractions.length) }
    else mkErrDct ("Unsupported file format: " ++ ext)

/-- Legacy plain `InvoiceData` (fields relevant to the claim; it has no
custom validators). -/
structure LegacyInvoiceData where
  merchant_name : Option String := none
  total_amount : Option ℚ := none
  currency : Option String := some ("USD")
  confidence_score : Option ℚ := none
  deriving DecidableEq, Repr

/-- `validate_extraction` (lines 207-211): pydantic coercion of the raw
dictionary is external (`Except`); a coercion failure is caught and
replaced by `InvoiceData(confidence_score=0.0)`. -/
def validate_extraction (coerced : Except String LegacyInvoiceData) :
    LegacyInvoiceData :=
  match coerced with
  | .ok d => d
  | .error _ => { confidence_score := some 0 }

end Finvo

namespace Finvo

/-- C10: the legacy extraction interface never raises — both functions are
total by construction — and every failure path produces a dictionary with
an `error` key and `confidence_score` 0.0: missing file, unsupported
extension, image-path API or parse failure, a PDF with no extractable
images, and a PDF whose every page extraction failed; `validate_extraction`
returns the parsed record on success and a record with
`confidence_score` 0.0 instead of raising when coercion fails. -/
theorem C10_legacy_extractor (parse : String → Option Dct) (suffix : String)
    (imageApi : Except String String)
    (pdfPages : List (Except String String)) :
    (∀ m, ((mkErrDct m).errKey).isSome = true ∧ (mkErrDct m).confKey = some 0) ∧
    (legacy_extract_from_file parse false suffix imageApi pdfPages =
      mkErrDct ("File not found")) ∧
    (legacy_image_formats.contains (pyLower suffix) = true →
      ((∀ e, imageApi = .error e →
        legacy_extract_from_file parse true suffix imageApi pdfPages =
          mkErrDct ("Failed to extract data: " ++ e)) ∧
       (∀ content m, imageApi = .ok content →
        parse_with_repair parse content = .error m →
        legacy_extract_from_file parse true suffix imageApi pdfPages =
          mkErrDct ("Failed to extract data: " ++ m)))) ∧
    (legacy_image_formats.contains (pyLower suffix) = false →
      (pyLower suffix == ".pdf") = false →
      legacy_extract_from_file parse true suffix imageApi pdfPages =
        mkErrDct ("Unsupported file format: " ++ pyLower suffix)) ∧
    (pyLower suffix = ".pdf" →
      ((pdfPages = [] →
        legacy_extract_from_file parse true suffix imageApi pdfPages =
          mkErrDct ("No images found in PDF")) ∧
       (pdfPages ≠ [] →
        (∀ p ∈ pdfPages,
          (((legacy_extract_from_image parse p).errKey)).isSome = true) →
        legacy_extract_from_file parse true suffix imageApi pdfPages =
          mkErrDct ("Failed to extract data from PDF pages")))) ∧
    (∀ d, validate_extraction (.ok d) = d) ∧
    (∀ e, validate_extraction (.error e) =
      { merchant_name := none, total_amount := none,
        currency := some ("USD"), confidence_score := some 0 }) := by
  refine ⟨fun m => ⟨rfl, rfl⟩, rfl, ?_, ?_, ?_, fun d => rfl, fun e => rfl⟩
  · intro hc
    have hcm : pyLower suffix ∈ legacy_image_formats := by simpa using hc
    constructor
    · intro e he
      simp [legacy_extract_from_file, hcm, he, legacy_extract_from_image]
    · intro content m hc2 hm
      simp [legacy_extract_from_file, hcm, hc2, legacy_extract_from_image, hm]
  · intro hc hpdf
    have hcm : pyLower suffix ∉ legacy_image_formats := by simpa using hc
    have hp2 : ¬ pyLower suffix = ".pdf" := by simpa using hpdf
    simp [legacy_extract_from_file, hcm, hp2]
  · intro hpdf
    have hcm : (".pdf" : String) ∉ legacy_image_formats := by decide
    constructor
    · intro hpages
      simp [legacy_extract_from_file, hcm, hpdf, hpages]
    · intro hpages hall
      have hne : pdfPages.isEmpty = false := by
        cases pdfPages with
        | nil => exact absurd rfl hpages
        | cons p ps => rfl
      have hfilter : ((pdfPages.map (legacy_extract_from_image parse)).filter
          (fun d => d.errKey.isNone)) = [] := by
        rw [List.filter_eq_nil_iff]
        intro d hd
        obtain ⟨p, hp, hdp⟩ := List.mem_map.mp hd
        have h2 := hall p hp
        rw [hdp] at h2
        cases hq : d.errKey with
        | none => rw [hq] at h2; simp at h2
        | some v => simp [hq]
      simp [legacy_extract_from_file, hcm, hpdf, hne, hfilter]

theorem C10_legacy_extractor_witness :
    legacy_extract_from_file (fun _ => Option.none) true (".TXT")
      (Except.ok "") [] = mkErrDct ("Unsupported file format: .txt") :=
  (C10_legacy_extractor (fun _ => Option.none) (".TXT") (Except.ok "")
    []).2.2.2.1 (by decide) (by decide)

end Finvo

namespace Finvo

/-! ### Schema constraints of `InvoiceData` and the extraction agent's
`_validate_result` (agents/invoice_extractor.py 387-410)

Pydantic field constraints (`ge`, `le`, `min_length`, `max_length`) and
the custom validators are run over a raw record whose numeric fields are
rationals.  pydantic collects all field errors before failing; the
embedding fails on the first one, which coincides on every successful
validation (the case the claim is about).  `fuel_info` and
`processing_metadata` carry no constraint relevant to the claims and are
omitted. -/

structure ExpenseItem where
  item_name : String
  quantity : Option ℚ
  unit_price : Option ℚ
  total_price : Option ℚ
  category : ExpenseCategory
  deriving DecidableEq, Repr

structure RawItem where
  item_name : String := ""
  quantity : Option ℚ := none
  unit_price : Option ℚ := none
  total_price : Option ℚ := none
  category : CatInput := CatInput.none

structure InvoiceData where
  merchant_name : Option String
  transaction_date : Option String
  transaction_time : Option String
  total_amount : Option ℚ
  tax_amount : Option ℚ
  subtotal : Option ℚ
  items : List ExpenseItem
  invoice_number : Option String
  payment_method : Option PaymentMethod
  currency : String
  confidence_score : Option ℚ
  deriving DecidableEq, Repr

structure RawInvoice where
  merchant_name : Option String := none
  transaction_date : Option String := none
  transaction_time : Option String := none
  total_amount : Option ℚ := none
  tax_amount : Option ℚ := none
  subtotal : Option ℚ := none
  items : List RawItem := []
  invoice_number : Option String := none
  payment_method : PMInput := PMInput.none
  currency : String := "USD"
  confidence_score : Option ℚ := none

def ensure (b : Prop) [Decidable b] (msg : String) : Except String Unit :=
  if b then .ok () else .error msg

def checkOptGe0 (v : Option ℚ) (msg : String) : Except String Unit :=
  match v with
  | none => .ok ()
  | some q => ensure (0 ≤ q) msg

def checkOptMaxLen (v : Option String) (n : Nat) (msg : String) :
    Except String Unit :=
  match v with
  | none => .ok ()
  | some s => ensure (s.length ≤ n) msg

/-- Field validation of one `ExpenseItem` (length bounds on the name,
nonnegative quantity and prices, category mapping). -/
def mkExpenseItem (r : RawItem) : Except String ExpenseItem := do
  _ ← ensure (1 ≤ r.item_name.length) ("item_name too short")
  _ ← ensure (r.item_name.length ≤ 200) ("item_name too long")
  _ ← checkOptGe0 r.quantity ("quantity must be nonnegative")
  _ ← checkOptGe0 r.unit_price ("unit_price must be nonnegative")
  _ ← checkOptGe0 r.total_price ("total_price must be nonnegative")
  pure { item_name := r.item_name, quantity := r.quantity,
         unit_price := r.unit_price, total_price := r.total_price,
         category := validate_category r.category }

def mkItems : List RawItem → Except String (List ExpenseItem)
  | [] => .ok []
  | r :: rs => do
    let it ← mkExpenseItem r
    let rest ← mkItems rs
    pure (it :: rest)

/-- Whole-model validation of `InvoiceData`: constraints and validators in
field order. -/
def mkInvoiceData (r : RawInvoice) : Except String InvoiceData := do
  _ ← checkOptMaxLen r.merchant_name 200 ("merchant_name too long")
  let date ← validate_transaction_date r.transaction_date
  let time ← validate_transaction_time r.transaction_time
  _ ← checkOptGe0 r.total_amount ("total_amount must be nonnegative")
  _ ← checkOptGe0 r.tax_amount ("tax_amount must be nonnegative")
  _ ← checkOptGe0 r.subtotal ("subtotal must be nonnegative")
  let items ← mkItems r.items
  _ ← checkOptMaxLen r.invoice_number 100 ("invoice_number too long")
  _ ← ensure (r.currency.length ≤ 3) ("currency too long")
  _ ← (match r.confidence_score with
    | none => Except.ok ()
    | some c => ensure (0 ≤ c ∧ c ≤ 1) ("confidence_score out of range"))
  pure { merchant_name := r.merchant_name, transaction_date := date,
         transaction_time := time, total_amount := r.total_amount,
         tax_amount := r.tax_amount, subtotal := r.subtotal,
         items := items, invoice_number := r.invoice_number,
         payment_method := validate_payment_method r.payment_method,
         currency := pyUpper r.currency,
         confidence_score := r.confidence_score }

/-- `_validate_result`: construct the validated record; when its
confidence score is absent set the default 0.8; wrap a validation failure
in a `ValidationError`. -/
def validate_result (r : RawInvoice) : Except String InvoiceData :=
  match mkInvoiceData r with
  | .ok d =>
    match d.confidence_score with
    | none => .ok { d with confidence_score := some (8 / 10) }
    | some _ => .ok d
  | .error e => .error ("Failed to validate extraction result: " ++ e)

theorem exceptBind_ok {α β : Type} (x : Except String α)
    (f : α → Except String β) (b : β) (h : x >>= f = .ok b) :
    ∃ a, x = .ok a ∧ f a = .ok b := by
  cases x with
  | ok a => exact ⟨a, rfl, h⟩
  | error e => exact Except.noConfusion h

theorem checkOptGe0_ok (v : Option ℚ) (msg : String) (u : Unit)
    (h : checkOptGe0 v msg = .ok u) : ∀ t, v = some t → 0 ≤ t := by
  intro t ht
  rw [ht] at h
  simp only [checkOptGe0] at h
  unfold ensure at h
  split at h
  · assumption
  · exact Except.noConfusion h

theorem mkExpenseItem_ok (r : RawItem) (it : ExpenseItem)
    (h : mkExpenseItem r = .ok it) :
    (∀ q, it.quantity = some q → 0 ≤ q) ∧
    (∀ q, it.unit_price = some q → 0 ≤ q) ∧
    (∀ q, it.total_price = some q → 0 ≤ q) := by
  unfold mkExpenseItem at h
  obtain ⟨u1, h1, h⟩ := exceptBind_ok _ _ _ h
  obtain ⟨u2, h2, h⟩ := exceptBind_ok _ _ _ h
  obtain ⟨u3, h3, h⟩ := exceptBind_ok _ _ _ h
  obtain ⟨u4, h4, h⟩ := exceptBind_ok _ _ _ h
  obtain ⟨u5, h5, h⟩ := exceptBind_ok _ _ _ h
  cases h
  exact ⟨checkOptGe0_ok _ _ _ h3, checkOptGe0_ok _ _ _ h4,
    checkOptGe0_ok _ _ _ h5⟩

theorem mkItems_ok : ∀ (rs : List RawItem) (its : List ExpenseItem),
    mkItems rs = .ok its →
    ∀ it ∈ its, ∃ r, mkExpenseItem r = .ok it := by
  intro rs
  induction rs with
  | nil =>
    intro its h it hit
    cases h
    cases hit
  | cons r rs ih =>
    intro its h it hit
    unfold mkItems at h
    obtain ⟨a, ha, h⟩ := exceptBind_ok _ _ _ h
    obtain ⟨rest, hrest, h⟩ := exceptBind_ok _ _ _ h
    cases h
    rcases List.mem_cons.mp hit with h1 | h1
    · exact ⟨r, by rw [ha, h1]⟩
    · exact ih rest hrest it h1

theorem mkInvoiceData_ok (r : RawInvoice) (d : InvoiceData)
    (h : mkInvoiceData r = .ok d) :
    d.total_amount = r.total_amount ∧
    d.tax_amount = r.tax_amount ∧
    d.subtotal = r.subtotal ∧
    d.confidence_score = r.confidence_score ∧
    (∀ t, d.total_amount = some t → 0 ≤ t) ∧
    (∀ t, d.tax_amount = some t → 0 ≤ t) ∧
    (∀ t, d.subtotal = some t → 0 ≤ t) ∧
    (∀ c, d.confidence_score = some c → 0 ≤ c ∧ c ≤ 1) ∧
    (∀ it ∈ d.items, (∀ q, it.quantity = some q → 0 ≤ q) ∧
      (∀ q, it.unit_price = some q → 0 ≤ q) ∧
      (∀ q, it.total_price = some q → 0 ≤ q)) := by
  unfold mkInvoiceData at h
  obtain ⟨u1, h1, h⟩ := exceptBind_ok _ _ _ h
  obtain ⟨date, hdate, h⟩ := exceptBind_ok _ _ _ h
  obtain ⟨time, htime, h⟩ := exceptBind_ok _ _ _ h
  obtain ⟨u2, h2, h⟩ := exceptBind_ok _ _ _ h
  obtain ⟨u3, h3, h⟩ := exceptBind_ok _ _ _ h
  obtain ⟨u4, h4, h⟩ := exceptBind_ok _ _ _ h
  obtain ⟨items, hitems, h⟩ := exceptBind_ok _ _ _ h
  obtain ⟨u5, h5, h⟩ := exceptBind_ok _ _ _ h
  obtain ⟨u6, h6, h⟩ := exceptBind_ok _ _ _ h
  obtain ⟨u7, h7, h⟩ := exceptBind_ok _ _ _ h
  cases h
  refine ⟨rfl, rfl, rfl, rfl, checkOptGe0_ok _ _ _ h2,
    checkOptGe0_ok _ _ _ h3, checkOptGe0_ok _ _ _ h4, ?_, ?_⟩
  · intro c hc
    have hc2 : r.confidence_score = some c := hc
    rw [hc2] at h7
    simp only [] at h7
    unfold ensure at h7
    split at h7
    · assumption
    · exact Except.noConfusion h7
  · intro it hit
    obtain ⟨r0, hr0⟩ := mkItems_ok r.items items hitems it hit
    exact mkExpenseItem_ok r0 it hr0

/-- C9: every `InvoiceData` the extraction agent's result validation
returns has a present confidence score inside `[0, 1]` — the default 0.8
is substituted when the LLM omitted it — and schema validation rejects
out-of-range confidence scores and negative monetary amounts, so a
successfully returned record satisfies all these bounds. -/
theorem C9_validate_result_bounds (r : RawInvoice) :
    (∀ d, validate_result r = .ok d →
      (∃ c, d.confidence_score = some c ∧ 0 ≤ c ∧ c ≤ 1) ∧
      (∀ t, d.total_amount = some t → 0 ≤ t) ∧
      (∀ t, d.tax_amount = some t → 0 ≤ t) ∧
      (∀ t, d.subtotal = some t → 0 ≤ t) ∧
      (∀ it ∈ d.items, (∀ q, it.unit_price = some q → 0 ≤ q) ∧
        (∀ q, it.total_price = some q → 0 ≤ q))) ∧
    (r.confidence_score = none → ∀ d, validate_result r = .ok d →
      d.confidence_score = some (8 / 10)) ∧
    (∀ c, r.confidence_score = some c → ¬ (0 ≤ c ∧ c ≤ 1) →
      ∃ e, validate_result r = .error e) := by
  refine ⟨?_, ?_, ?_⟩
  · intro d h
    unfold validate_result at h
    cases hmk : mkInvoiceData r with
    | error e => rw [hmk] at h; exact Except.noConfusion h
    | ok d0 =>
      simp only [hmk] at h
      obtain ⟨ht1, ht2, ht3, hcs, hb1, hb2, hb3, hb4, hb5⟩ :=
        mkInvoiceData_ok r d0 hmk
      cases hc0 : d0.confidence_score with
      | none =>
        simp only [hc0] at h
        cases h
        exact ⟨⟨8 / 10, rfl, by norm_num, by norm_num⟩, hb1, hb2, hb3,
          fun it hit => ⟨(hb5 it hit).2.1, (hb5 it hit).2.2⟩⟩
      | some c =>
        simp only [hc0] at h
        cases h
        have hcb := hb4 c hc0
        exact ⟨⟨c, hc0, hcb.1, hcb.2⟩, hb1, hb2, hb3,
          fun it hit => ⟨(hb5 it hit).2.1, (hb5 it hit).2.2⟩⟩
  · intro hnone d h
    unfold validate_result at h
    cases hmk : mkInvoiceData r with
    | error e => rw [hmk] at h; exact Except.noConfusion h
    | ok d0 =>
      simp only [hmk] at h
      obtain ⟨_, _, _, hcs, _⟩ := mkInvoiceData_ok r d0 hmk
      cases hc0 : d0.confidence_score with
      | none =>
        simp only [hc0] at h
        cases h
        rfl
      | some c =>
        rw [hc0, hnone] at hcs
        exact Option.noConfusion hcs
  · intro c hc hbad
    cases hres : validate_result r with
    | error e => exact ⟨e, rfl⟩
    | ok d =>
      exfalso
      unfold validate_result at hres
      cases hmk : mkInvoiceData r with
      | error e => rw [hmk] at hres; exact Except.noConfusion hres
      | ok d0 =>
        obtain ⟨_, _, _, hcs, _, _, _, hb4, _⟩ := mkInvoiceData_ok r d0 hmk
        rw [hc] at hcs
        exact hbad (hb4 c hcs)

theorem C9_validate_result_bounds_witness :
    ∃ c, (⟨none, none, none, none, none, none, [], none, none, ("USD"),
        some (8 / 10)⟩ : InvoiceData).confidence_score = some c ∧
      0 ≤ c ∧ c ≤ 1 :=
  (((C9_validate_result_bounds {}).1
    (⟨none, none, none, none, none, none, [], none, none, ("USD"),
        some (8 / 10)⟩ : InvoiceData) (by rfl))).1

end Finvo
